import Mathlib

/-!
Shallow embedding of `cvecheck-2-html.py`: a converter from a Yocto
`cve-summary.json` document to an HTML report.

Modelling conventions:
* Python scalar values that can appear in the JSON input are modelled by the
  inductive type `PyVal`; Python floats are modelled as rationals (the script
  performs no arithmetic on scores, only parsing and comparisons, so the
  binary-representation error of IEEE floats is irrelevant to every property
  stated here).
* A JSON object (issue entry) is an association list; `dict.get(k)` returns
  `None` both for a missing key and for an explicit `null`, so `Issue.getv`
  returns `PyVal.vnone` in both cases.
* The top-level document structure (`j["package"]`, `pkg["name"]`,
  `pkg["version"]`, `pkg["issue"]`) is modelled structurally by `Pkg`/`Doc`.
* A raised Python exception inside `load_rows` (only possible in
  `(issue.get("status") or "").strip()` when the status is a truthy
  non-string) is modelled by `Option`: `none` means the run aborts.
* The fixed HTML head, CSS and JavaScript of `build_html` are constant text;
  only the `body` part built from the three tables (source lines 314-318) is
  modelled, together with `table_html`, `td`, `make_link` and `html.escape`.
-/

namespace CveCheck

/-- Model of a Python scalar value occurring in the input JSON. -/
inductive PyVal where
  | vnone
  | vstr (s : String)
  | vint (n : Int)
  | vfloat (q : ℚ)
deriving DecidableEq, Repr

/-- Python truthiness of a value (`bool(v)`). -/
def pyTruthy : PyVal → Bool
  | .vnone => false
  | .vstr s => s ≠ ""
  | .vint n => n ≠ 0
  | .vfloat q => q ≠ 0

/-- Python `a or b`: the first operand if truthy, else the second. -/
def pyOr (a b : PyVal) : PyVal := if pyTruthy a then a else b

/-- Python `a or b` on optional strings (as returned by `get_vectors`). -/
def pyOrStr (a b : Option String) : Option String :=
  match a with
  | some s => if s = "" then b else some s
  | none => b

/-- Python `a or d` coerced to a string default, as in `av or ""`. -/
def pyOrStrD (a : Option String) (d : String) : String :=
  match a with
  | some s => if s = "" then d else s
  | none => d

/-- Characters removed by Python `str.strip()` with no argument (ASCII
whitespace; the rare non-ASCII unicode space characters are not modelled). -/
def isPySpace (c : Char) : Bool :=
  c = ' ' || c = '\t' || c = '\n' || c = '\r' || c.toNat = 11 || c.toNat = 12

/-- Python `str.strip()` on a character list. -/
def trimChars (cs : List Char) : List Char :=
  ((cs.dropWhile isPySpace).reverse.dropWhile isPySpace).reverse

/-- Python `str.strip()`. -/
def pyTrim (s : String) : String := String.mk (trimChars s.data)

/-- Python `str(v)`. The repr of a float is modelled exactly at zero
(`str(0.0) = "0.0"`); a nonzero float prints as the rational's decimal/fraction
form, which is never `"0"` or `"0.0"` - the only two strings `parse_score`
compares against. -/
def pyStr : PyVal → String
  | .vnone => "None"
  | .vstr s => s
  | .vint n => toString n
  | .vfloat q => if q = 0 then "0.0" else toString q

/-- Numeric value of a decimal digit character. -/
def digitVal (c : Char) : ℕ := c.toNat - 48

/-- Value of a list of decimal digit characters. -/
def digitsToNat (cs : List Char) : ℕ := cs.foldl (fun a c => a * 10 + digitVal c) 0

/-- Leading optional sign of a numeric literal: `(isNegative, rest)`. -/
def parseSign : List Char → Bool × List Char
  | '+' :: cs => (false, cs)
  | '-' :: cs => (true, cs)
  | cs => (false, cs)

/-- Split a numeric literal at the first exponent marker `e`/`E`. -/
def splitAtExp : List Char → List Char × Option (List Char)
  | [] => ([], none)
  | c :: cs =>
    if c = 'e' || c = 'E' then ([], some cs)
    else
      let r := splitAtExp cs
      (c :: r.1, r.2)

/-- Split a character list on a separator character. -/
def splitOnChar (sep : Char) : List Char → List (List Char)
  | [] => [[]]
  | c :: cs =>
    let r := splitOnChar sep cs
    if c = sep then [] :: r
    else
      match r with
      | [] => [[c]]
      | p :: ps => (c :: p) :: ps

/-- Unsigned decimal mantissa `digits[.digits]` with at least one digit. -/
def parseMantissa (cs : List Char) : Option ℚ :=
  match splitOnChar '.' cs with
  | [ip] =>
    if ip ≠ [] && ip.all Char.isDigit then some (digitsToNat ip : ℚ) else none
  | [ip, fp] =>
    if (ip ≠ [] || fp ≠ []) && ip.all Char.isDigit && fp.all Char.isDigit
    then some ((digitsToNat (ip ++ fp) : ℚ) / (10 : ℚ) ^ fp.length)
    else none
  | _ => none

/-- Optional exponent part after `e`/`E`: optional sign and digits. -/
def parseExp (cs : List Char) : Option Int :=
  let sr := parseSign cs
  if sr.2 ≠ [] && sr.2.all Char.isDigit
  then some (if sr.1 then -(digitsToNat sr.2 : Int) else (digitsToNat sr.2 : Int))
  else none

/-- Model of Python `float(s)` on a string: surrounding whitespace is ignored,
then an optional sign, a decimal mantissa and an optional decimal exponent are
accepted; everything else raises, modelled as `none`. (The special literals
`inf`/`nan` and underscore digit separators lie outside the rational model and
are mapped to `none`; no claim depends on them.) -/
def strToFloat (s : String) : Option ℚ :=
  let cs := trimChars s.data
  let sr := parseSign cs
  let me := splitAtExp sr.2
  match parseMantissa me.1 with
  | none => none
  | some m =>
    let m := if sr.1 then -m else m
    match me.2 with
    | none => some m
    | some ecs =>
      match parseExp ecs with
      | none => none
      | some k => some (m * (10 : ℚ) ^ k)

/-- Model of Python `float(v)`: `none` when the conversion raises. -/
def pyFloat : PyVal → Option ℚ
  | .vnone => none
  | .vstr s => strToFloat s
  | .vint n => some (n : ℚ)
  | .vfloat q => some q

/-- `parse_score` (source lines 20-26): `None` for `None`, `""`, and any value
whose `str(...)` strips to `"0"` or `"0.0"`; otherwise `float(v)`, with a
conversion failure caught and turned into `None`. -/
def parse_score (v : PyVal) : Option ℚ :=
  if v = .vnone || v = .vstr "" || pyTrim (pyStr v) = "0" || pyTrim (pyStr v) = "0.0"
  then none
  else pyFloat v

/-- An issue entry of the input JSON: an association list of named fields
(first binding wins, like a Python dict). -/
def Issue := List (String × PyVal)

instance : DecidableEq Issue := fun a b => List.hasDecEq a b

/-- Python `issue.get(k)`: the bound value, or `None` for a missing key
(a key explicitly bound to `null` is indistinguishable from a missing one). -/
def Issue.getv (issue : Issue) (k : String) : PyVal :=
  match List.find? (fun p => p.1 = k) issue with
  | some p => p.2
  | none => .vnone

/-- Substring test on character lists: Python `needle in hay`. -/
def charsContain (needle : List Char) : List Char → Bool
  | [] => needle.isEmpty
  | c :: cs => needle.isPrefixOf (c :: cs) || charsContain needle cs

/-- Python `needle in hay` on strings. -/
def strContains (hay needle : String) : Bool := charsContain needle.data hay.data

/-- The alias keys probed for a v3 vector string (source lines 33-36). -/
def keys_v3 : List String :=
  ["cvss_v3_vector", "cvss3_vector", "cvssv3_vector",
   "vectorv3", "vector_v3", "vector3", "cvss_v3"]

/-- The alias keys probed for a v2 vector string (source lines 37-40). -/
def keys_v2 : List String :=
  ["cvss_v2_vector", "cvss2_vector", "cvssv2_vector",
   "vectorv2", "vector_v2", "vector2", "cvss_v2"]

/-- The v3-versus-v2 test applied to the legacy single `vector` field, exactly
as written on source line 47; `and` binds tighter than `or` in Python, so the
condition is `"PR:" in raw  or  "S:" in raw  or
("C:" in raw and "I:" in raw and "A:" in raw and ":" in raw)`. -/
def looksV3 (raw : String) : Bool :=
  strContains raw "PR:" || strContains raw "S:" ||
    (strContains raw "C:" && strContains raw "I:" && strContains raw "A:" &&
      strContains raw ":")

/-- Python `isinstance(vv, str) and vv`: the value when it is a non-empty
string, else nothing. -/
def strOfNonEmpty : PyVal → Option String
  | .vstr s => if s = "" then none else some s
  | _ => none

/-- The alias-key loops of `get_vectors` (source lines 51-62): first key whose
value is a non-empty string. -/
def firstKeyStr (issue : Issue) : List String → Option String
  | [] => none
  | k :: ks =>
    match strOfNonEmpty (issue.getv k) with
    | some s => some s
    | none => firstKeyStr issue ks

/-- The `v3` assignment of the legacy branch (source lines 44-50): the raw
single-field value when it is a non-empty string that looks like v3. -/
def legacyV3 : Option String → Option String
  | some s => if looksV3 s then some s else none
  | none => none

/-- The `v2` assignment of the legacy branch (source lines 44-50): the raw
single-field value when it is a non-empty string that does not look like v3. -/
def legacyV2 : Option String → Option String
  | some s => if looksV3 s then none else some s
  | none => none

/-- `get_vectors` (source lines 28-63): the legacy single `vector` /
`cvss_vector` field is classified by `looksV3`, then the per-version alias
keys fill whichever side is still unset. -/
def get_vectors (issue : Issue) : Option String × Option String :=
  let raw := pyOr (issue.getv "vector") (issue.getv "cvss_vector")
  (pyOrStr (legacyV3 (strOfNonEmpty raw)) (firstKeyStr issue keys_v3),
   pyOrStr (legacyV2 (strOfNonEmpty raw)) (firstKeyStr issue keys_v2))

/-- Normalisation in `attack_vector_from_vectorstring` (source line 77):
`v.replace(";", "/").upper()`, one character at a time (ASCII case folding,
which is all a CVSS vector contains). -/
def normChar (c : Char) : Char := (if c = ';' then '/' else c).toUpper

/-- Normalisation of the whole vector string. -/
def normChars (cs : List Char) : List Char := cs.map normChar

/-- Whether a character list starts with the tag `AV:`. -/
def isTagHead : List Char → Bool
  | a :: b :: c :: _ => a = 'A' && b = 'V' && c = ':'
  | _ => false

/-- Python `s.find("AV:")` (source line 79), returned as the suffix of the
string just after the first occurrence of the tag, or `none`. -/
def findTag : List Char → Option (List Char)
  | [] => none
  | a :: rest =>
    if isTagHead (a :: rest) then some (rest.drop 2) else findTag rest

/-- The fallback scan of `attack_vector_from_vectorstring` (source lines
83-90): split on `/`, strip each part, and take the character after `AV:` in
the first part that starts with `AV:` and has length at least 4. -/
def fallbackScan : List (List Char) → Option Char
  | [] => none
  | p :: ps =>
    match trimChars p with
    | 'A' :: 'V' :: ':' :: c :: _ => some c
    | _ => fallbackScan ps

/-- The attack-vector code table (source lines 98-103): `dict.get(code, None)`. -/
def avMap (c : Char) : Option String :=
  if c = 'N' then some "Network"
  else if c = 'A' then some "Adjacent"
  else if c = 'L' then some "Local"
  else if c = 'P' then some "Physical"
  else none

/-- Body of `attack_vector_from_vectorstring` after normalisation: direct
search for `AV:` (reading the following character when the string is long
enough), with the split-and-scan fallback when the tag is absent. -/
def avChars (cs : List Char) : Option String :=
  match findTag cs with
  | some rest =>
    match rest with
    | c :: _ => avMap c
    | [] => none
  | none =>
    match fallbackScan (splitOnChar '/' cs) with
    | some c => avMap c
    | none => none

/-- `attack_vector_from_vectorstring` (source lines 65-103); a non-string
input (`None`) yields `None`. -/
def attack_vector_from_vectorstring (v : Option String) : Option String :=
  match v with
  | none => none
  | some s => avChars (normChars s.data)

/-- One flattened output record of `load_rows` (source lines 113-125). -/
structure Row where
  package : PyVal
  version : PyVal
  cve_id : PyVal
  status : String
  scorev3 : Option ℚ
  scorev2 : Option ℚ
  attack_vector : String
  vector_v3 : String
  vector_v2 : String
  summary : PyVal
  link : PyVal
deriving DecidableEq, Repr

/-- A package entry of the document: `pkg.get("name")`, `pkg.get("version")`
(both `None` when missing) and `pkg.get("issue", [])`. -/
structure Pkg where
  name : PyVal
  version : PyVal
  issue : List Issue
deriving DecidableEq

/-- The input document: `j.get("package", [])`. -/
structure Doc where
  package : List Pkg
deriving DecidableEq

/-- Python `(issue.get("status") or "").strip()`: `.strip()` raises
`AttributeError` on a truthy non-string, modelled as `none`. -/
def statusOf (issue : Issue) : Option String :=
  match pyOr (issue.getv "status") (.vstr "") with
  | .vstr s => some (pyTrim s)
  | _ => none

/-- Construction of one `Row` from one issue entry (the body of the inner loop
of `load_rows`, source lines 110-125). -/
def rowOf (name version : PyVal) (issue : Issue) : Option Row :=
  match statusOf issue with
  | none => none
  | some st =>
    let vecs := get_vectors issue
    let av := attack_vector_from_vectorstring (pyOrStr vecs.1 vecs.2)
    some
      { package := name
        version := version
        cve_id := issue.getv "id"
        status := st
        scorev3 := parse_score (issue.getv "scorev3")
        scorev2 := parse_score (issue.getv "scorev2")
        attack_vector := pyOrStrD av ""
        vector_v3 := pyOrStrD vecs.1 ""
        vector_v2 := pyOrStrD vecs.2 ""
        summary := pyOr (issue.getv "summary") (.vstr "")
        link := pyOr (issue.getv "link") (.vstr "") }

/-- Effectful map over a list in the `Option` monad: the first failure aborts
the whole traversal (a raised exception aborts the Python run). -/
def traverseOpt (f : α → Option β) : List α → Option (List β)
  | [] => some []
  | a :: as =>
    match f a with
    | none => none
    | some b =>
      match traverseOpt f as with
      | none => none
      | some bs => some (b :: bs)

/-- The rows of one package entry. -/
def rowsOfPkg (pkg : Pkg) : Option (List Row) :=
  traverseOpt (rowOf pkg.name pkg.version) pkg.issue

/-- `load_rows` (source lines 105-126): one row per (package, issue) pair,
appended in input order. -/
def load_rows (j : Doc) : Option (List Row) :=
  match traverseOpt rowsOfPkg j.package with
  | some rss => some rss.flatten
  | none => none

/-- `sort_key` (source lines 128-133): the v3 score, else the v2 score,
else `-1`. -/
def sort_key (row : Row) : ℚ :=
  match row.scorev3 with
  | some s => s
  | none =>
    match row.scorev2 with
    | some s => s
    | none => -1

/-- Comparator of the descending severity sort: `a` may precede `b` when its
key is at least `b`'s. -/
def rowGE (a b : Row) : Bool := sort_key b ≤ sort_key a

/-- Python `list.sort(key=sort_key, reverse=True)`: a stable sort under the
reversed key comparison (CPython's sort is stable and `reverse=True` reverses
the comparison, not the output; any stable sort is extensionally unique, so
`mergeSort` models it exactly). -/
def sortRowsDesc (rows : List Row) : List Row := rows.mergeSort rowGE

/-- Python `str.lower()`, one character at a time (ASCII case folding, which
covers the status strings the tool compares). -/
def strLower (s : String) : String := String.mk (s.data.map Char.toLower)

/-- Membership test of the unpatched partition (source line 277). -/
def isUnpatched (r : Row) : Bool := strLower r.status = "unpatched"

/-- Membership test of the patched partition (source line 278). -/
def isPatched (r : Row) : Bool := strLower r.status = "patched"

/-- The effective score used by the minimum-score filter (source line 284):
v3 when present, else v2. -/
def effScore (r : Row) : Option ℚ :=
  match r.scorev3 with
  | some s => some s
  | none => r.scorev2

/-- `score_ok` (source lines 283-285): a determinable effective score that
reaches the threshold. -/
def score_ok (t : ℚ) (r : Row) : Bool :=
  match effScore r with
  | some s => t ≤ s
  | none => false

/-- The three status partitions of `build_html` (source lines 277-286),
with the optional minimum-score filter applied to the unpatched partition
only: `(unpatched, patched, others)`. -/
def partitions (all_rows : List Row) (min_score : Option ℚ) :
    List Row × List Row × List Row :=
  let unpatched := all_rows.filter isUnpatched
  let patched := all_rows.filter isPatched
  let others := all_rows.filter (fun r => !(isUnpatched r || isPatched r))
  let unpatched :=
    match min_score with
    | some t => unpatched.filter (score_ok t)
    | none => unpatched
  (unpatched, patched, others)

/-- The unpatched partition after filtering and sorting (source line 289). -/
def sortedUnpatched (all_rows : List Row) (min_score : Option ℚ) : List Row :=
  sortRowsDesc (partitions all_rows min_score).1

/-- The patched partition after sorting (source line 290). -/
def sortedPatched (all_rows : List Row) : List Row :=
  sortRowsDesc (partitions all_rows none).2.1

/-- The remaining partition after sorting (source line 291). -/
def sortedOthers (all_rows : List Row) : List Row :=
  sortRowsDesc (partitions all_rows none).2.2

/-- The `Total CVEs` figure of the report header (source lines 293, 307):
computed from `all_rows` before any filtering or truncation. -/
def report_total (all_rows : List Row) : ℕ := all_rows.length

/-- The three per-partition counts of the report header (source lines
308-310): the lengths of the filtered, sorted partitions; the row limit plays
no part in them. -/
def report_counts (all_rows : List Row) (min_score : Option ℚ) : ℕ × ℕ × ℕ :=
  ((sortedUnpatched all_rows min_score).length,
   (sortedPatched all_rows).length,
   (sortedOthers all_rows).length)

/-- Python `html.escape(s, quote=True)` for one character; the apostrophe
(code point 39) becomes `&#x27;`. -/
def escapeChar (c : Char) : String :=
  if c = '&' then "&amp;"
  else if c = '<' then "&lt;"
  else if c = '>' then "&gt;"
  else if c = '"' then "&quot;"
  else if c.toNat = 39 then "&#x27;"
  else String.mk [c]

/-- Python `html.escape` with its default `quote=True`. -/
def htmlEscape (s : String) : String := String.join (s.data.map escapeChar)

/-- Python `a or b` on plain strings. -/
def strOr (a b : String) : String := if a = "" then b else a

/-- `make_link` (source lines 207-211): a link whose text is the last
path component when the URL is longer than 60 characters. -/
def make_link (url : String) : String :=
  if url = "" then ""
  else
    let display := if 60 < url.length then (url.splitOn "/").getLastD "" else url
    "<a href=\"" ++ htmlEscape url ++ "\" target=\"_blank\" rel=\"noopener\">"
      ++ htmlEscape display ++ "</a>"

/-- `td` (source lines 213-216). -/
def td (val : String) (sort_val : Option String) (cls : String) : String :=
  let attr_sort :=
    match sort_val with
    | some sv => " data-sort=\"" ++ htmlEscape sv ++ "\""
    | none => ""
  let attr_cls := if cls = "" then "" else " class=\"" ++ cls ++ "\""
  "<td" ++ attr_sort ++ attr_cls ++ ">" ++ val ++ "</td>"

/-- The CSS class for a status cell (source lines 239-244). -/
def statusCls (status : String) : String :=
  if strLower status = "unpatched" then "status-Unpatched"
  else if strLower status = "patched" then "status-Patched"
  else "status-Other"

/-- Round to the nearest integer, ties to even: the rounding of Python's
`f"{x:.1f}"` applied to `x * 10` (the binary representation error of the
float argument is outside the rational model). -/
def roundHalfEven (q : ℚ) : Int :=
  let f := ⌊q⌋
  let frac := q - f
  if frac < 1/2 then f
  else if 1/2 < frac then f + 1
  else if f % 2 = 0 then f else f + 1

/-- Python `f"{q:.1f}"`: one decimal place. -/
def formatQ1 (q : ℚ) : String :=
  let n := roundHalfEven (q * 10)
  let sign := if n < 0 then "-" else ""
  let m := n.natAbs
  sign ++ toString (m / 10) ++ "." ++ toString (m % 10)

/-- One `<tr>` of a table (source lines 239-268). `str(x or "")` on a field
that is already a string is the identity, and is written as such. -/
def rowHtml (r : Row) : String :=
  let status := r.status
  let status_cls := statusCls status
  let sv3_disp := match r.scorev3 with | some q => formatQ1 q | none => ""
  let sv2_disp := match r.scorev2 with | some q => formatQ1 q | none => ""
  let linkStr := pyStr (pyOr r.link (.vstr ""))
  let link_html := make_link linkStr
  let vector_combo := strOr r.vector_v3 (strOr r.vector_v2 "")
  "<tr>"
    ++ td (htmlEscape (pyStr (pyOr r.package (.vstr "")))) none ""
    ++ td (htmlEscape (pyStr (pyOr r.version (.vstr "")))) none ""
    ++ td (htmlEscape (pyStr (pyOr r.cve_id (.vstr "")))) none ""
    ++ td (htmlEscape status) none status_cls
    ++ td (htmlEscape sv3_disp)
        (some (match r.scorev3 with | some q => pyStr (.vfloat q) | none => "")) ""
    ++ td (htmlEscape sv2_disp)
        (some (match r.scorev2 with | some q => pyStr (.vfloat q) | none => "")) ""
    ++ td (htmlEscape (strOr r.attack_vector "")) none ""
    ++ td (htmlEscape vector_combo) none ""
    ++ td link_html (some linkStr) ""
    ++ td (htmlEscape (pyStr (pyOr r.summary (.vstr "")))) none ""
    ++ "</tr>"

/-- The fixed `<thead>` block of `table_html` (source lines 219-236). -/
def tableHead : String :=
  "\n    <table class=\"sortable\">\n      <thead>\n        <tr>\n          <th data-type=\"text\">Package</th>\n          <th data-type=\"text\">Version</th>\n          <th data-type=\"text\">CVE</th>\n          <th data-type=\"text\">Status</th>\n          <th data-type=\"num\">CVSS v3</th>\n          <th data-type=\"num\">CVSS v2</th>\n          <th data-type=\"text\">Attack Vector</th>\n          <th data-type=\"text\">Vector (v3/v2)</th>\n          <th data-type=\"text\">Link</th>\n          <th data-type=\"text\">Summary</th>\n        </tr>\n      </thead>\n      <tbody>\n    "

/-- The fixed closing block of `table_html` (source lines 269-272). -/
def tableTail : String := "\n      </tbody>\n    </table>\n    "

/-- The `rows[:limit]` slice of `table_html` (source line 238): the rows that
are actually rendered. -/
def table_rows (rows : List Row) (limit : ℕ) : List Row := rows.take limit

/-- `table_html` (source lines 218-273). -/
def table_html (title : String) (rows : List Row) (limit : ℕ) : String :=
  "<h2>" ++ htmlEscape title ++ "</h2>\n" ++ tableHead
    ++ String.intercalate "\n" ((table_rows rows limit).map rowHtml)
    ++ tableTail

/-- The tables composing the report body (source lines 314-318): the
unpatched and patched tables unconditionally, the remaining-status table only
when its partition is non-empty. -/
def bodyTables (all_rows : List Row) (min_score : Option ℚ) :
    List (String × List Row) :=
  [("Unpatched (ordenadas por severidad)", sortedUnpatched all_rows min_score),
   ("Patched", sortedPatched all_rows)]
    ++ (if sortedOthers all_rows = [] then []
        else [("Otros estados", sortedOthers all_rows)])

/-- The `body` string of `build_html` (source lines 314-318); the surrounding
head, CSS, JavaScript and header paragraph are fixed text and are not part of
the table structure the claims are about. -/
def build_body (all_rows : List Row) (min_score : Option ℚ) (limit : ℕ) :
    String :=
  String.join ((bodyTables all_rows min_score).map
    (fun t => table_html t.1 t.2 limit))

/-- A concrete issue of the end-to-end example of the specification
(integer-valued score so that every field evaluates inside the kernel). -/
def demoIssueA : Issue :=
  [("id", .vstr "CVE-2024-0001"), ("status", .vstr "Unpatched"),
   ("scorev3", .vstr "9"), ("vector", .vstr "AV:N/AC:L/PR:N/UI:N/S:U/C:H/I:H/A:H"),
   ("summary", .vstr "demo issue"), ("link", .vstr "https://example.org/a")]

/-- A second concrete issue, patched, with only a v2 score and vector. -/
def demoIssueB : Issue :=
  [("id", .vstr "CVE-2024-0002"), ("status", .vstr "Patched"),
   ("scorev2", .vstr "4"), ("vector_v2", .vstr "AV:L/AC:L/Au:N/C:P/I:N/A:N")]

/-- A concrete input document: one package with two issues. -/
def demoDoc : Doc := ⟨[⟨.vstr "libfoo", .vstr "1.2", [demoIssueA, demoIssueB]⟩]⟩

/-- The rows extracted from `demoDoc`. -/
def demoRows : List Row := (load_rows demoDoc).getD []

/-- A document whose single issue carries the negative score string `"-5"`. -/
def negDoc : Doc :=
  ⟨[⟨.vstr "pkgneg", .vstr "1.0",
     [[("id", .vstr "CVE-NEG"), ("status", .vstr "Unpatched"),
       ("scorev3", .vstr "-5")]]⟩]⟩

/-- The disambiguation condition exactly as claim C3 words it: a
privileges-required marker, or all three of the C/I/A impact markers. -/
def specV3_claimed (raw : String) : Bool :=
  strContains raw "PR:" ||
    (strContains raw "C:" && strContains raw "I:" && strContains raw "A:")

/-- The disambiguation condition as amended: the code also accepts a lone
scope marker `S:` as proof of a v3 vector. -/
def specV3_amended (raw : String) : Bool :=
  strContains raw "PR:" || strContains raw "S:" ||
    (strContains raw "C:" && strContains raw "I:" && strContains raw "A:")

/-- A concrete unpatched row with v3 score 9. -/
def wRowU : Row :=
  { package := .vstr "libfoo", version := .vstr "1.2", cve_id := .vstr "CVE-A",
    status := "Unpatched", scorev3 := some 9, scorev2 := none,
    attack_vector := "Network", vector_v3 := "AV:N/AC:L/PR:N/UI:N/S:U/C:H/I:H/A:H",
    vector_v2 := "", summary := .vstr "", link := .vstr "" }

/-- A concrete unpatched row with no determinable score. -/
def wRowN : Row :=
  { package := .vstr "libbar", version := .vstr "2.0", cve_id := .vstr "CVE-B",
    status := "Unpatched", scorev3 := none, scorev2 := none,
    attack_vector := "", vector_v3 := "", vector_v2 := "",
    summary := .vstr "", link := .vstr "" }

/-- A successful `traverseOpt` preserves the length of the list. -/
theorem traverseOpt_length {α β : Type _} (f : α → Option β) :
    ∀ (l : List α) (bs : List β), traverseOpt f l = some bs → bs.length = l.length := by
  intro l
  induction l with
  | nil =>
    intro bs h
    simp only [traverseOpt] at h
    injection h with h
    subst h
    rfl
  | cons a as ih =>
    intro bs h
    simp only [traverseOpt] at h
    cases hfa : f a with
    | none => rw [hfa] at h; cases h
    | some b =>
      rw [hfa] at h
      cases hrest : traverseOpt f as with
      | none => rw [hrest] at h; cases h
      | some bs' =>
        rw [hrest] at h
        injection h with h
        subst h
        simp [ih bs' hrest]

/-- A successful traversal of the package list yields per-package row lists
whose lengths are the per-package issue counts. -/
theorem rowsOfPkg_lengths :
    ∀ (pkgs : List Pkg) (rss : List (List Row)),
      traverseOpt rowsOfPkg pkgs = some rss →
      rss.map List.length = pkgs.map (fun p => p.issue.length) := by
  intro pkgs
  induction pkgs with
  | nil =>
    intro rss h
    simp only [traverseOpt] at h
    injection h with h
    subst h
    rfl
  | cons p ps ih =>
    intro rss h
    simp only [traverseOpt] at h
    cases hfp : rowsOfPkg p with
    | none => rw [hfp] at h; cases h
    | some rs =>
      rw [hfp] at h
      cases hrest : traverseOpt rowsOfPkg ps with
      | none => rw [hrest] at h; cases h
      | some rss' =>
        rw [hrest] at h
        injection h with h
        subst h
        simp only [List.map_cons]
        rw [ih rss' hrest, traverseOpt_length _ _ _ hfp]

/-- C1: whenever extraction completes, `load_rows` returns exactly one row
per (package, issue) pair: the row count is the sum over all packages of the
number of issue entries, whatever score or vector fields each issue carries. -/
theorem C1_one_row_per_issue (j : Doc) (rows : List Row)
    (h : load_rows j = some rows) :
    rows.length = (j.package.map (fun p => p.issue.length)).sum := by
  unfold load_rows at h
  cases hts : traverseOpt rowsOfPkg j.package with
  | none => rw [hts] at h; cases h
  | some rss =>
    rw [hts] at h
    injection h with h
    subst h
    rw [List.length_flatten, rowsOfPkg_lengths j.package rss hts]

/-- C1 witness: the two-issue demo document yields exactly two rows. -/
theorem C1_witness :
    ∃ rows, load_rows demoDoc = some rows ∧
      rows.length = (demoDoc.package.map (fun p => p.issue.length)).sum :=
  ⟨demoRows, by decide, C1_one_row_per_issue demoDoc demoRows (by decide)⟩

/-- C2: `parse_score` maps `None`, the empty string and the literal zero
values `0`, `0.0`, `"0"`, `"0.0"` to absent - never to numeric zero - and maps
any value whose float conversion fails to absent instead of raising. -/
theorem C2_parse_score_zero_and_malformed :
    parse_score .vnone = none ∧
    parse_score (.vstr "") = none ∧
    parse_score (.vint 0) = none ∧
    parse_score (.vfloat 0) = none ∧
    parse_score (.vstr "0") = none ∧
    parse_score (.vstr "0.0") = none ∧
    (∀ v : PyVal, pyFloat v = none → parse_score v = none) := by
  refine ⟨by decide, by decide, by decide, by decide, by decide, by decide,
    fun v hv => ?_⟩
  unfold parse_score
  split
  · rfl
  · exact hv

/-- C2 witness: a non-numeric string is absent, not an error. -/
theorem C2_witness :
    pyFloat (.vstr "notanumber") = none ∧
    parse_score (.vstr "notanumber") = none :=
  ⟨by decide,
   C2_parse_score_zero_and_malformed.2.2.2.2.2.2 (.vstr "notanumber") (by decide)⟩

/-- C8 counterexample: an issue whose `scorev3` field holds the string `"-5"`
produces a row whose v3 score is the negative number `-5`, so extracted rows
are not always non-negative. -/
theorem C8_counterexample :
    ((load_rows negDoc).getD []).map Row.scorev3 = [some (-5 : ℚ)] ∧
    parse_score (.vstr "-5") = some (-5 : ℚ) ∧ (-5 : ℚ) < 0 := by decide

/-- C8 (amended): a present score field always carries exactly the float
value of the input field - hence it is non-negative whenever that value is -
and each row's score fields are `parse_score` of the corresponding issue
fields; a negative numeric input, however, is carried through unchanged. -/
theorem C8_scores_passthrough :
    (∀ (v : PyVal) (q : ℚ), parse_score v = some q → pyFloat v = some q) ∧
    (∀ (v : PyVal) (q : ℚ), pyFloat v = some q → 0 ≤ q →
      ∀ q' : ℚ, parse_score v = some q' → 0 ≤ q') ∧
    (∀ (name version : PyVal) (issue : Issue) (row : Row),
      rowOf name version issue = some row →
      row.scorev3 = parse_score (issue.getv "scorev3") ∧
      row.scorev2 = parse_score (issue.getv "scorev2")) := by
  have h1 : ∀ (v : PyVal) (q : ℚ), parse_score v = some q → pyFloat v = some q := by
    intro v q h
    unfold parse_score at h
    split at h
    · cases h
    · exact h
  refine ⟨h1, fun v q hq hq0 q' h' => ?_, fun name version issue row h => ?_⟩
  · have := h1 v q' h'
    rw [hq] at this
    injection this with this
    subst this
    exact hq0
  · unfold rowOf at h
    cases hst : statusOf issue with
    | none => rw [hst] at h; cases h
    | some st =>
      rw [hst] at h
      injection h with h
      subst h
      exact ⟨rfl, rfl⟩

/-- C8 witness: a plain numeric score string is passed through. -/
theorem C8_witness : pyFloat (.vstr "7") = some 7 :=
  C8_scores_passthrough.1 (.vstr "7") 7 (by decide)

/-- C10 counterexample: the claim asserts that `" 0 "` parses to the float
`0.0`; in fact surrounding whitespace is stripped before the literal
comparison, so `" 0 "` is mapped to absent. -/
theorem C10_counterexample :
    parse_score (.vstr " 0 ") = none ∧ parse_score (.vstr " 0 ") ≠ some 0 := by
  exact ⟨by decide, by decide⟩

/-- C10 (amended): zero-valued score strings outside the stripped literal set
are normalized to numeric zero - `"0.00"` and `"00"` parse to `0.0` - while
`None`, `""` and exactly the strings that strip to `"0"` or `"0.0"`
(such as `" 0 "`) are mapped to absent. -/
theorem C10_zero_literals :
    parse_score (.vstr "0.00") = some 0 ∧
    parse_score (.vstr "00") = some 0 ∧
    parse_score (.vstr " 0 ") = none ∧
    parse_score (.vstr " 0.0\t") = none := by
  refine ⟨?_, by decide, by decide, by decide⟩
  have h : parse_score (.vstr "0.00")
      = some ((digitsToNat ['0', '0', '0'] : ℚ) / (10 : ℚ) ^ (2 : ℕ)) := rfl
  rw [h]
  have h2 : digitsToNat ['0', '0', '0'] = 0 := by decide
  rw [h2]
  norm_num

/-- A needle that starts a list occurs in it. -/
theorem charsContain_of_isPrefixOf (n cs : List Char) (h : n.isPrefixOf cs) :
    charsContain n cs = true := by
  cases cs with
  | nil =>
    cases n with
    | nil => rfl
    | cons x xs => simp [List.isPrefixOf] at h
  | cons c cs' =>
    simp only [charsContain, Bool.or_eq_true]
    exact Or.inl h

/-- Dropping the first character of the needle preserves occurrence. -/
theorem charsContain_tail (x : Char) (n : List Char) :
    ∀ cs : List Char, charsContain (x :: n) cs = true → charsContain n cs = true := by
  intro cs
  induction cs with
  | nil => intro h; simp [charsContain, List.isEmpty] at h
  | cons c cs' ih =>
    simp only [charsContain, Bool.or_eq_true]
    rintro (h | h)
    · simp only [List.isPrefixOf, Bool.and_eq_true] at h
      exact Or.inr (charsContain_of_isPrefixOf n cs' h.2)
    · exact Or.inr (ih h)

/-- A string containing `"A:"` contains `":"`. -/
theorem strContains_colon (s : String) (h : strContains s "A:" = true) :
    strContains s ":" = true :=
  charsContain_tail 'A' [':'] s.data h

/-- The redundant `":" in raw` conjunct of the source condition never changes
its value, so `looksV3` coincides with the amended claim condition. -/
theorem looksV3_eq_amended (s : String) : looksV3 s = specV3_amended s := by
  unfold looksV3 specV3_amended
  cases he : strContains s "A:" with
  | false => simp [he]
  | true => simp [he, strContains_colon s he]

/-- C3 counterexample: the legacy value `"S:U"` has no privileges-required
marker and not all of the C/I/A markers, so the claim classifies it as v2;
the code classifies it as v3 (the `"S:" in raw` disjunct). -/
theorem C3_counterexample :
    specV3_claimed "S:U" = false ∧
    get_vectors [("vector", .vstr "S:U")] = (some "S:U", none) :=
  ⟨by decide, by decide⟩

/-- C3 (amended): a non-empty legacy single `vector` field is classified as a
v3 vector exactly when it contains a privileges-required marker `PR:`, or a
scope marker `S:`, or simultaneously the three impact markers `C:`, `I:`,
`A:`; in every other case it is treated as a v2 vector. -/
theorem C3_legacy_vector_amended (s : String) (hs : s ≠ "") :
    get_vectors [("vector", .vstr s)]
      = (if specV3_amended s then (some s, none) else (none, some s)) := by
  have hfk3 : firstKeyStr [("vector", .vstr s)] keys_v3 = none := rfl
  have hfk2 : firstKeyStr [("vector", .vstr s)] keys_v2 = none := rfl
  have hraw : pyOr (Issue.getv [("vector", .vstr s)] "vector")
      (Issue.getv [("vector", .vstr s)] "cvss_vector") = .vstr s := by
    show pyOr (.vstr s) .vnone = .vstr s
    unfold pyOr pyTruthy
    simp [hs]
  have hne : strOfNonEmpty (.vstr s) = some s := by
    simp only [strOfNonEmpty]
    rw [if_neg hs]
  simp only [get_vectors, hraw, hfk3, hfk2, hne, legacyV3, legacyV2]
  rw [looksV3_eq_amended]
  cases h : specV3_amended s with
  | false => simp [h, pyOrStr, hs]
  | true => simp [h, pyOrStr, hs]

/-- C3 witness: a full v3 vector in the legacy field is classified as v3. -/
theorem C3_witness :
    get_vectors [("vector", .vstr "AV:N/AC:L/PR:N/UI:N/S:U/C:H/I:H/A:H")]
      = (some "AV:N/AC:L/PR:N/UI:N/S:U/C:H/I:H/A:H", none) := by
  rw [C3_legacy_vector_amended "AV:N/AC:L/PR:N/UI:N/S:U/C:H/I:H/A:H" (by decide)]
  decide

/-- A list that does not start the tag still does not start it after more
characters are appended past its first three positions. -/
theorem isTagHead_append_tag (a : Char) (pre rest : List Char)
    (hi : isTagHead (a :: pre) = false) :
    isTagHead (a :: (pre ++ 'A' :: 'V' :: ':' :: rest)) = false := by
  cases pre with
  | nil => simp [isTagHead]
  | cons b pre' =>
    cases pre' with
    | nil => simp [isTagHead]
    | cons c pre'' => exact hi

/-- Locating `AV:`: when the prefix contains no occurrence of the tag, the
first occurrence is the explicitly appended one. -/
theorem findTag_append (pre rest : List Char) (h : findTag pre = none) :
    findTag (pre ++ 'A' :: 'V' :: ':' :: rest) = some rest := by
  induction pre with
  | nil => simp [findTag, isTagHead]
  | cons a pre ih =>
    unfold findTag at h
    cases hi : isTagHead (a :: pre) with
    | true => rw [hi] at h; simp at h
    | false =>
      rw [hi] at h
      simp only [if_neg, Bool.false_eq_true, not_false_eq_true, if_false] at h
      show (if isTagHead (a :: (pre ++ 'A' :: 'V' :: ':' :: rest))
        then some ((pre ++ 'A' :: 'V' :: ':' :: rest).drop 2)
        else findTag (pre ++ 'A' :: 'V' :: ':' :: rest)) = some rest
      rw [isTagHead_append_tag a pre rest hi]
      simp only [Bool.false_eq_true, not_false_eq_true, if_false]
      exact ih h

/-- Two convenient equations of the Python `or` on optional strings. -/
theorem pyOrStr_some_of_ne (s : String) (b : Option String) (h : s ≠ "") :
    pyOrStr (some s) b = some s := by
  simp only [pyOrStr, if_neg h]

/-- The Python `or` on optional strings with an absent first operand. -/
theorem pyOrStr_none (b : Option String) : pyOrStr none b = b := rfl

/-- A v3 vector extracted by `get_vectors` is never the empty string. -/
theorem strOfNonEmpty_ne_empty (v : PyVal) (t : String)
    (h : strOfNonEmpty v = some t) : t ≠ "" := by
  cases v with
  | vstr s =>
    simp only [strOfNonEmpty] at h
    by_cases hs : s = ""
    · rw [if_pos hs] at h; cases h
    · rw [if_neg hs] at h; injection h with h; subst h; exact hs
  | vnone => exact Option.noConfusion h
  | vint n => exact Option.noConfusion h
  | vfloat q => exact Option.noConfusion h

/-- A vector found through the alias-key loop is never the empty string. -/
theorem firstKeyStr_ne_empty (issue : Issue) (t : String) :
    ∀ ks : List String, firstKeyStr issue ks = some t → t ≠ "" := by
  intro ks
  induction ks with
  | nil => intro h; cases h
  | cons k ks' ih =>
    intro h
    unfold firstKeyStr at h
    cases hk : strOfNonEmpty (issue.getv k) with
    | none => rw [hk] at h; exact ih h
    | some s =>
      rw [hk] at h
      injection h with h
      subst h
      exact strOfNonEmpty_ne_empty _ _ hk

/-- The v3 component returned by `get_vectors` is never the empty string. -/
theorem get_vectors_fst_ne_empty (issue : Issue) (t : String)
    (h : (get_vectors issue).1 = some t) : t ≠ "" := by
  unfold get_vectors at h
  simp only at h
  cases hr : strOfNonEmpty
      (pyOr (issue.getv "vector") (issue.getv "cvss_vector")) with
  | none =>
    rw [hr] at h
    simp only [legacyV3, pyOrStr] at h
    exact firstKeyStr_ne_empty issue t keys_v3 h
  | some s =>
    rw [hr] at h
    simp only [legacyV3] at h
    cases hl : looksV3 s with
    | true =>
      rw [hl] at h
      simp only [if_true] at h
      by_cases hs : s = ""
      · rw [pyOrStr] at h
        rw [if_pos hs] at h
        exact firstKeyStr_ne_empty issue t keys_v3 h
      · rw [pyOrStr_some_of_ne s _ hs] at h
        injection h with h
        subst h
        exact hs
    | false =>
      rw [hl] at h
      simp only [Bool.false_eq_true, if_false, pyOrStr] at h
      exact firstKeyStr_ne_empty issue t keys_v3 h

/-- C4: the attack-vector classifier yields absent on `None` and on the empty
string; on a string whose first (normalised) `AV:` tag is followed by a code
character it yields exactly the table value for that code - `Network`,
`Adjacent`, `Local`, `Physical` for `N`, `A`, `L`, `P` and absent for every
other code - and each row's attack vector is computed from the v3 vector
string when one is present, else from the v2 vector string. -/
theorem C4_attack_vector_classifier :
    attack_vector_from_vectorstring none = none ∧
    attack_vector_from_vectorstring (some "") = none ∧
    attack_vector_from_vectorstring
      (some "AV:N/AC:L/PR:N/UI:N/S:U/C:H/I:H/A:H") = some "Network" ∧
    attack_vector_from_vectorstring
      (some "AV:P/AC:L/Au:N/C:C/I:C/A:C") = some "Physical" ∧
    (avMap 'N' = some "Network" ∧ avMap 'A' = some "Adjacent" ∧
      avMap 'L' = some "Local" ∧ avMap 'P' = some "Physical" ∧
      ∀ c : Char, c ≠ 'N' → c ≠ 'A' → c ≠ 'L' → c ≠ 'P' → avMap c = none) ∧
    (∀ (s : String) (pre post : List Char) (c : Char),
      normChars s.data = pre ++ 'A' :: 'V' :: ':' :: c :: post →
      findTag pre = none →
      attack_vector_from_vectorstring (some s) = avMap c) ∧
    (∀ (name version : PyVal) (issue : Issue) (row : Row) (v3 : String),
      rowOf name version issue = some row →
      (get_vectors issue).1 = some v3 →
      row.attack_vector
        = pyOrStrD (attack_vector_from_vectorstring (some v3)) "") ∧
    (∀ (name version : PyVal) (issue : Issue) (row : Row),
      rowOf name version issue = some row →
      (get_vectors issue).1 = none →
      row.attack_vector
        = pyOrStrD (attack_vector_from_vectorstring (get_vectors issue).2) "") := by
  refine ⟨rfl, by decide, by decide, by decide,
    ⟨by decide, by decide, by decide, by decide, fun c hn ha hl hp => ?_⟩,
    fun s pre post c hn hpre => ?_, fun name version issue row v3 h hv => ?_,
    fun name version issue row h hv => ?_⟩
  · simp [avMap, hn, ha, hl, hp]
  · show avChars (normChars s.data) = avMap c
    rw [hn]
    unfold avChars
    rw [findTag_append pre (c :: post) hpre]
  · unfold rowOf at h
    cases hst : statusOf issue with
    | none => rw [hst] at h; cases h
    | some st =>
      rw [hst] at h
      injection h with h
      subst h
      show pyOrStrD (attack_vector_from_vectorstring
        (pyOrStr (get_vectors issue).1 (get_vectors issue).2)) "" = _
      rw [hv, pyOrStr_some_of_ne v3 _ (get_vectors_fst_ne_empty issue v3 hv)]
  · unfold rowOf at h
    cases hst : statusOf issue with
    | none => rw [hst] at h; cases h
    | some st =>
      rw [hst] at h
      injection h with h
      subst h
      show pyOrStrD (attack_vector_from_vectorstring
        (pyOrStr (get_vectors issue).1 (get_vectors issue).2)) "" = _
      rw [hv, pyOrStr_none]

/-- C4 witness: separator and case normalisation feed the tag search; the
adjacent code maps to `Adjacent`. -/
theorem C4_witness :
    attack_vector_from_vectorstring (some "av:a;x") = some "Adjacent" := by
  have h := C4_attack_vector_classifier.2.2.2.2.2.1 "av:a;x" [] ['/', 'X'] 'A'
    (by decide) (by decide)
  exact h.trans (by decide)

/-- The sort comparator is transitive. -/
theorem rowGE_trans : ∀ a b c : Row, rowGE a b → rowGE b c → rowGE a c := by
  intro a b c hab hbc
  simp only [rowGE, decide_eq_true_eq] at hab hbc ⊢
  exact le_trans hbc hab

/-- The sort comparator is total. -/
theorem rowGE_total : ∀ a b : Row, rowGE a b || rowGE b a := by
  intro a b
  simp only [rowGE, Bool.or_eq_true, decide_eq_true_eq]
  exact le_total (sort_key b) (sort_key a)

/-- C5: after the descending severity sort every adjacent pair `(a, b)`
satisfies `sort_key a ≥ sort_key b`; the sort permutes its input, and rows
with equal effective scores keep their relative input order (all rows of any
given key value appear in exactly their input order). -/
theorem C5_sort_descending_stable (rows : List Row) :
    List.Chain' (fun a b => sort_key b ≤ sort_key a) (sortRowsDesc rows) ∧
    (∀ q : ℚ, (sortRowsDesc rows).filter (fun r => sort_key r = q)
      = rows.filter (fun r => sort_key r = q)) ∧
    List.Perm (sortRowsDesc rows) rows := by
  refine ⟨?_, ?_, List.mergeSort_perm rows rowGE⟩
  · have hp := List.sorted_mergeSort rowGE_trans rowGE_total rows
    exact hp.chain'.imp (fun a b h => by
      simpa only [rowGE, decide_eq_true_eq] using h)
  · intro q
    have hc : (rows.filter (fun r => sort_key r = q)).Pairwise
        (fun a b => rowGE a b) := by
      apply List.pairwise_of_forall_mem_list
      intro a ha b hb
      have ha' := (List.mem_filter.mp ha).2
      have hb' := (List.mem_filter.mp hb).2
      simp only [decide_eq_true_eq] at ha' hb'
      simp [rowGE, ha', hb']
    have h1 := List.sublist_mergeSort rowGE_trans rowGE_total hc
      (List.filter_sublist rows)
    have h2 := h1.filter (fun r => decide (sort_key r = q))
    rw [List.filter_eq_self.mpr (fun a ha => (List.mem_filter.mp ha).2)] at h2
    have hperm := (List.mergeSort_perm rows rowGE).filter
      (fun r => decide (sort_key r = q))
    exact (h2.eq_of_length hperm.length_eq.symm).symm

/-- A row passes the threshold test exactly when it has a determinable
effective score reaching the threshold. -/
theorem score_ok_iff (t : ℚ) (r : Row) :
    score_ok t r = true ↔ ∃ s, effScore r = some s ∧ t ≤ s := by
  unfold score_ok
  cases he : effScore r with
  | none => simp
  | some s => simp

/-- C6: under a minimum-score threshold the unpatched partition is exactly
the threshold-filtered unpatched subset - a row belongs to it precisely when
it is an unpatched input row with a determinable effective score at least the
threshold - rows with no determinable score are excluded, and the patched and
remaining partitions are unchanged by the filter. -/
theorem C6_threshold_filters_unpatched (all_rows : List Row) (t : ℚ) (r : Row) :
    (partitions all_rows (some t)).1
        = ((partitions all_rows none).1).filter (score_ok t) ∧
    (r ∈ (partitions all_rows (some t)).1 ↔
      (r ∈ all_rows ∧ isUnpatched r ∧ ∃ s, effScore r = some s ∧ t ≤ s)) ∧
    (effScore r = none → r ∉ (partitions all_rows (some t)).1) ∧
    (partitions all_rows (some t)).2.1 = (partitions all_rows none).2.1 ∧
    (partitions all_rows (some t)).2.2 = (partitions all_rows none).2.2 := by
  have hmem : r ∈ (partitions all_rows (some t)).1 ↔
      (r ∈ all_rows ∧ isUnpatched r ∧ ∃ s, effScore r = some s ∧ t ≤ s) := by
    simp only [partitions, List.mem_filter, ← score_ok_iff]
    tauto
  refine ⟨rfl, hmem, ?_, rfl, rfl⟩
  intro he hmem'
  obtain ⟨-, -, s, hs, -⟩ := hmem.mp hmem'
  rw [he] at hs
  cases hs

/-- C7: the row limit is applied to the already-sorted partition, so exactly
the first `lim` post-sort rows are rendered and every rendered row is at
least as severe as every truncated row; the header's total and per-partition
counts are the full (post-filter) partition sizes, untouched by the limit. -/
theorem C7_limit_after_sort (all_rows : List Row) (ms : Option ℚ) (lim : ℕ) :
    table_rows (sortedUnpatched all_rows ms) lim
        = (sortRowsDesc (partitions all_rows ms).1).take lim ∧
    (∀ (title : String) (rs : List Row),
      table_html title rs lim = table_html title (rs.take lim) lim) ∧
    (∀ rs : List Row, ∀ a ∈ (sortRowsDesc rs).take lim,
      ∀ b ∈ (sortRowsDesc rs).drop lim, sort_key b ≤ sort_key a) ∧
    report_counts all_rows ms
        = ((partitions all_rows ms).1.length,
           (partitions all_rows ms).2.1.length,
           (partitions all_rows ms).2.2.length) ∧
    report_total all_rows = all_rows.length := by
  refine ⟨rfl, ?_, ?_, ?_, rfl⟩
  · intro title rs
    unfold table_html table_rows
    rw [List.take_take, min_self]
  · intro rs a ha b hb
    have hp := List.sorted_mergeSort rowGE_trans rowGE_total rs
    have hp2 : ((sortRowsDesc rs).take lim ++ (sortRowsDesc rs).drop lim).Pairwise
        (fun a b => rowGE a b) := by
      rw [List.take_append_drop]
      exact hp
    have := (List.pairwise_append.mp hp2).2.2 a ha b hb
    simpa only [rowGE, decide_eq_true_eq] using this
  · simp only [report_counts, sortedUnpatched, sortedPatched, sortedOthers,
      sortRowsDesc, List.length_mergeSort, partitions]

set_option maxRecDepth 40000 in
/-- C9 counterexample: on an empty input every partition is empty, yet the
report body still contains a table for the (empty) patched partition - the
unpatched and patched tables are rendered unconditionally. -/
theorem C9_counterexample :
    ("Patched" ∈ (bodyTables [] none).map Prod.fst) ∧
    (partitions ([] : List Row) none).2.1 = [] ∧
    strContains (build_body [] none 200) "<h2>Patched" = true := by
  have hu : sortedUnpatched [] none = [] := by
    simp [sortedUnpatched, partitions, sortRowsDesc]
  have hp : sortedPatched [] = [] := by
    simp [sortedPatched, partitions, sortRowsDesc]
  have ho : sortedOthers [] = [] := by
    simp [sortedOthers, partitions, sortRowsDesc]
  refine ⟨?_, rfl, ?_⟩
  · simp [bodyTables, ho]
  · have hb : build_body [] none 200
        = String.join [table_html "Unpatched (ordenadas por severidad)" [] 200,
            table_html "Patched" [] 200] := by
      simp [build_body, bodyTables, hu, hp, ho]
    rw [hb]
    decide

/-- C9 (amended): the unpatched and patched tables always appear in the
report body, even when their partition is empty; only the remaining-status
table is conditional, appearing exactly when its partition is non-empty. -/
theorem C9_tables_amended (all_rows : List Row) (ms : Option ℚ) :
    ("Unpatched (ordenadas por severidad)"
        ∈ (bodyTables all_rows ms).map Prod.fst) ∧
    ("Patched" ∈ (bodyTables all_rows ms).map Prod.fst) ∧
    (("Otros estados" ∈ (bodyTables all_rows ms).map Prod.fst)
      ↔ (partitions all_rows ms).2.2 ≠ []) := by
  have hlen : sortedOthers all_rows = [] ↔ (partitions all_rows ms).2.2 = [] := by
    constructor
    · intro h
      have hlen2 := congrArg List.length h
      simp only [sortedOthers, sortRowsDesc, List.length_mergeSort,
        List.length_nil] at hlen2
      exact List.length_eq_zero.mp hlen2
    · intro h
      have h' : (partitions all_rows none).2.2 = [] := h
      simp [sortedOthers, sortRowsDesc, h']
  refine ⟨?_, ?_, ?_⟩
  · simp [bodyTables]
  · simp [bodyTables]
  · by_cases h : (partitions all_rows ms).2.2 = []
    · have h2 : sortedOthers all_rows = [] := hlen.mpr h
      simp [bodyTables, h2, h]
    · have h2 : sortedOthers all_rows ≠ [] := fun hh => h (hlen.mp hh)
      simp [bodyTables, h2, h]

/-- C6 witness: with threshold 7, the scored row is kept exactly by the
membership characterisation and the unscored row is excluded. -/
theorem C6_witness :
    (wRowU ∈ (partitions [wRowU, wRowN] (some 7)).1 ↔
      (wRowU ∈ [wRowU, wRowN] ∧ isUnpatched wRowU ∧
        ∃ s, effScore wRowU = some s ∧ (7 : ℚ) ≤ s)) ∧
    wRowN ∉ (partitions [wRowU, wRowN] (some 7)).1 :=
  ⟨(C6_threshold_filters_unpatched [wRowU, wRowN] 7 wRowU).2.1,
   (C6_threshold_filters_unpatched [wRowU, wRowN] 7 wRowN).2.2.1 (by decide)⟩

/-- C7 witness: in a two-row partition with limit 1, the rendered row is at
least as severe as the truncated one. -/
theorem C7_witness : sort_key wRowN ≤ sort_key wRowU := by
  have hs : sortRowsDesc [wRowU, wRowN] = [wRowU, wRowN] :=
    List.mergeSort_of_sorted (by decide)
  exact (C7_limit_after_sort [] none 1).2.2.1 [wRowU, wRowN] wRowU
    (by simp [hs]) wRowN (by simp [hs])

end CveCheck
